import Mathlib

/-!
Shallow embedding of the Request Lifecycle Manager core of the mcp-go
repository (package `protocol`), translated from
`protocol/request_lifecycle_manager.go`, `protocol/errors.go` (the variant
with the `Is` method), the generic `IDType` (id file) and the JSON-RPC
request / notification validators.

Go machine values are modelled as follows: `time.Duration` (an int64 of
nanoseconds) becomes `Int` (no arithmetic in the verified paths can
overflow 64 bits for the inputs considered, and the comparisons `<= 0`,
`>` are sign comparisons); Go maps become association lists; the
`sync.WaitGroup` counter becomes a `Nat` field; the cancellable
`context.Context` becomes a `Bool` flag; callbacks are abstracted by a
numeric identity (`Option Nat`, `none` standing for a nil function value).
Concurrency is modelled by an adversarial interleaving of atomic events:
each event is one critical section of the Go code (every mutating
operation of the manager holds the single mutex for its whole body, so a
lock-protected body is one atomic event).  `triggerCallback` is split into
the dispatch decision (context check + capture + `cleanupRequest`, the
part that both decides whether the callback runs and decrements the
counter) and the callback's return, so that states in which a dispatched
callback is still executing are observable.
-/

namespace MCP

/-- `TimeoutType` of request_lifecycle_manager.go: the two timer kinds. -/
inductive TimeoutType
  | SoftTimeout
  | MaximumTimeout
deriving DecidableEq

/-- The sentinel error values of errors.go, plus the two wrapper kinds
(`ValidationError{Reason}` and `InvalidIDError{Err}`), as one closed
taxonomy.  A wrapper carries the data its Go struct carries. -/
inductive GoErr
  | errInvalidID
  | errEmptyRequestID
  | errSoftTimeoutNotPositive
  | errMaximumTimeoutNotPositive
  | errSoftTimeoutExceedsMaximum
  | errDuplicateRequestID
  | errRequestNotFound
  | errCallbackNil
  | invalidIDError (cause : String)
  | validationError (reason : String)
deriving DecidableEq

/-- `errors.Is(e, ErrInvalidID)`: true for the sentinel itself and, through
the `Is`/`Unwrap` methods of `InvalidIDError` (which return
`target == ErrInvalidID` and `ErrInvalidID`), for every `InvalidIDError`. -/
def errorsIsInvalidID : GoErr → Bool
  | .errInvalidID => true
  | .invalidIDError _ => true
  | _ => false

/-- The zero value (`var zero T`) of an `IDConstraint` kind. -/
class GoZero (α : Type) where
  zeroVal : α

instance : GoZero String := ⟨""⟩

instance : GoZero Int := ⟨0⟩

/-- `IDType[T]`: the generic id wrapper. -/
structure IDType (α : Type) where
  Value : α
deriving DecidableEq

/-- `IDType.IsEmpty`: the wrapped value equals the kind's zero value. -/
def IDType.IsEmpty {α : Type} [GoZero α] [DecidableEq α] (id : IDType α) : Bool :=
  id.Value = GoZero.zeroVal

/-- A JSON value as far as id decoding distinguishes them: a string
primitive, an integer primitive, the JSON `null`, or anything else
(object, array, boolean, fraction).  `null` is kept apart because
`encoding/json` treats unmarshalling `null` into a non-pointer Go value
as a no-op that returns no error. -/
inductive Jsonv
  | str (s : String)
  | int (n : Int)
  | null
  | other
deriving DecidableEq

/-- `IDType.MarshalJSON` for the string kind: `json.Marshal(id.Value)`,
the bare primitive. -/
def marshalIDString (id : IDType String) : Jsonv :=
  .str id.Value

/-- `IDType.UnmarshalJSON` for the string kind, decoding into a fresh
(zero-valued) receiver: `json.Unmarshal` into the underlying string fails
on a non-string, non-null JSON value (wrapped in `InvalidIDError`); on
JSON `null` it is a no-op returning no error, so the receiver keeps its
zero value and the `IsEmpty` check fires; a decoded zero value is
rejected with `ErrEmptyRequestID`. -/
def unmarshalIDString : Jsonv → Except GoErr (IDType String)
  | .str s =>
      if (IDType.mk s).IsEmpty then .error .errEmptyRequestID else .ok ⟨s⟩
  | .null => .error .errEmptyRequestID
  | _ => .error (.invalidIDError "json: cannot unmarshal value into Go string")

/-- `IDType.MarshalJSON` for the integer kind. -/
def marshalIDInt (id : IDType Int) : Jsonv :=
  .int id.Value

/-- `IDType.UnmarshalJSON` for the integer kind, decoding into a fresh
(zero-valued) receiver; JSON `null` is a no-op of `json.Unmarshal`, so it
falls to the `IsEmpty` check. -/
def unmarshalIDInt : Jsonv → Except GoErr (IDType Int)
  | .int n =>
      if (IDType.mk n).IsEmpty then .error .errEmptyRequestID else .ok ⟨n⟩
  | .null => .error .errEmptyRequestID
  | _ => .error (.invalidIDError "json: cannot unmarshal value into Go int64")

/-- `const JSONRPCVersion = "2.0"`. -/
def JSONRPCVersion : String := "2.0"

/-- A single-quote character, kept out of string literals. -/
def sq : String := String.singleton (Char.ofNat 39)

/-- Go `%q` of a string with no characters needing escapes (all method
names appearing in this development are plain ASCII without quotes,
backslashes or control characters, where `%q` is exactly this). -/
def goQuote (s : String) : String := "\"" ++ s ++ "\""

/-- The reserved-method reason text shared by both validators:
`method names starting with 'rpc.' are reserved`. -/
def reservedReason : String :=
  "method names starting with " ++ sq ++ "rpc." ++ sq ++ " are reserved"

/-- `strings.TrimSpace(s) == ""`: every character of `s` is whitespace
(the inputs considered use ASCII whitespace, where Go's `unicode.IsSpace`
and `Char.isWhitespace` agree). -/
def isBlank (s : String) : Bool :=
  s.data.all Char.isWhitespace

/-- `strings.HasPrefix` over character lists, by structural recursion. -/
def hasPre : List Char → List Char → Bool
  | [], _ => true
  | _ :: _, [] => false
  | p :: ps, c :: cs => decide (p = c) && hasPre ps cs

/-- `strings.HasPrefix(s, p)`, written `strHasPre p s`. -/
def strHasPre (p s : String) : Bool :=
  hasPre p.data s.data

/-- `JSONRPCRequest[T]` restricted to the fields validation reads
(`Params` is never consulted by `Validate`). -/
structure JSONRPCRequest (α : Type) where
  jsonrpc : String
  method : String
  id : IDType α

/-- `JSONRPCRequest.Validate` (part_009): version, then blank method, then
empty id, then the reserved `rpc.` name check whose reason appends
`, got: %q`. -/
def JSONRPCRequest.Validate {α : Type} [GoZero α] [DecidableEq α]
    (r : JSONRPCRequest α) : Option GoErr :=
  if r.jsonrpc ≠ JSONRPCVersion then
    some (.validationError ("invalid JSON-RPC version: expected " ++
      goQuote JSONRPCVersion ++ ", got " ++ goQuote r.jsonrpc))
  else if isBlank r.method then
    some (.validationError "method name cannot be empty or whitespace")
  else if r.id.IsEmpty then
    some (.validationError "id must not be empty")
  else if strHasPre "rpc." r.method then
    some (.validationError (reservedReason ++ ", got: " ++ goQuote r.method))
  else
    none

/-- `JSONRPCNotification` restricted to the fields validation reads. -/
structure JSONRPCNotification where
  jsonrpc : String
  method : String

/-- `JSONRPCNotification.Validate` (part_004): version, then blank method,
then the reserved `rpc.` name check with the bare reason. -/
def JSONRPCNotification.Validate (n : JSONRPCNotification) : Option GoErr :=
  if n.jsonrpc ≠ JSONRPCVersion then
    some (.validationError ("invalid JSON-RPC version: expected " ++
      goQuote JSONRPCVersion ++ ", got " ++ goQuote n.jsonrpc))
  else if isBlank n.method then
    some (.validationError "method cannot be empty")
  else if strHasPre "rpc." n.method then
    some (.validationError reservedReason)
  else
    none

/-- A `*time.Timer` handle as the manager observes it: the duration it was
scheduled with, the absolute deadline (`creation instant + duration`), and
whether `Stop()` would return true (the timer has neither fired nor been
stopped).  `time.AfterFunc(d, f)` yields `{ duration := d, deadline :=
now + d, active := true }`. -/
structure GoTimer where
  duration : Int
  deadline : Int
  active : Bool
deriving DecidableEq

/-- `requestState[T]` of request_lifecycle_manager.go. -/
structure requestState (α : Type) where
  id : IDType α
  softTimeout : Int
  maximumTimeout : Int
  softTimer : Option GoTimer
  maximumTimer : Option GoTimer
  onTimeout : Nat
  lastActivity : Int
deriving DecidableEq

/-- `RequestLifecycleManager[T]`.  `requests` and `usedIDs` are the two Go
maps as association lists; `cancelled` is the state of the manager's
cancellable context; `pending` is the `sync.WaitGroup` counter (`wg.Add` /
`wg.Done`); `executing` and `calls` are ghost instrumentation recording,
respectively, the callback dispatches begun and not yet returned, and the
log of all callback dispatches (the Go code has no such fields; they
observe the dispatches the Go code performs). -/
structure Manager (α : Type) where
  requests : List (IDType α × requestState α)
  usedIDs : List (IDType α)
  cancelled : Bool
  pending : Nat
  executing : List (IDType α × TimeoutType)
  calls : List (IDType α × TimeoutType)
deriving DecidableEq

variable {α : Type}

/-- Go map read `m.requests[id]`. -/
def lookupReq [DecidableEq α] (id : IDType α) :
    List (IDType α × requestState α) → Option (requestState α)
  | [] => none
  | p :: rest => if p.1 = id then some p.2 else lookupReq id rest

/-- Go map `delete(m.requests, id)` (keys are unique, so deleting the
first matching entry is the map deletion). -/
def removeReq [DecidableEq α] (id : IDType α) :
    List (IDType α × requestState α) → List (IDType α × requestState α)
  | [] => []
  | p :: rest => if p.1 = id then rest else p :: removeReq id rest

/-- Go map write `m.requests[id] = st` for a key already present. -/
def replaceReq [DecidableEq α] (id : IDType α) (st : requestState α) :
    List (IDType α × requestState α) → List (IDType α × requestState α)
  | [] => []
  | p :: rest => if p.1 = id then (id, st) :: rest else p :: replaceReq id st rest

/-- The fresh manager `NewRequestLifecycleManager` returns: empty maps, a
live context, a zero counter. -/
def initManager : Manager α :=
  { requests := [], usedIDs := [], cancelled := false, pending := 0,
    executing := [], calls := [] }

/-- The `requestState` literal `StartRequest` builds on success: both
timers scheduled by `time.AfterFunc` with the given durations,
`lastActivity := time.Now()`. -/
def startState (id : IDType α) (softTimeout maximumTimeout : Int) (cb : Nat) (now : Int) :
    requestState α :=
  { id := id, softTimeout := softTimeout, maximumTimeout := maximumTimeout,
    softTimer := some { duration := softTimeout, deadline := now + softTimeout, active := true },
    maximumTimer := some { duration := maximumTimeout, deadline := now + maximumTimeout, active := true },
    onTimeout := cb, lastActivity := now }

/-- `StartRequest(id, softTimeout, maximumTimeout, onTimeout)`: the checks
in source order (nil callback, empty id, duplicate id, then — after the id
was already inserted into `usedIDs` — the three timeout checks), and on
success `wg.Add(1)`, two `time.AfterFunc` timers and the insertion into
`requests`.  `now` is the instant the call runs (`time.Now()`). -/
def StartRequest [DecidableEq α] [GoZero α] (m : Manager α) (id : IDType α)
    (softTimeout maximumTimeout : Int) (onTimeout : Option Nat) (now : Int) :
    Except GoErr Unit × Manager α :=
  match onTimeout with
  | none => (.error .errCallbackNil, m)
  | some cb =>
    if id.IsEmpty then (.error .errEmptyRequestID, m)
    else if id ∈ m.usedIDs then (.error .errDuplicateRequestID, m)
    else
      let m1 := { m with usedIDs := id :: m.usedIDs }
      if softTimeout ≤ 0 then (.error .errSoftTimeoutNotPositive, m1)
      else if maximumTimeout ≤ 0 then (.error .errMaximumTimeoutNotPositive, m1)
      else if softTimeout > maximumTimeout then (.error .errSoftTimeoutExceedsMaximum, m1)
      else
        (.ok (), { m1 with
                   pending := m1.pending + 1
                   requests := (id, startState id softTimeout maximumTimeout cb now) :: m1.requests })

/-- `cleanupRequest(id)`: under the lock, absent id returns false;
otherwise stop the timers, delete the entry and `wg.Done()` (the timer
handles die with the removed state, so stopping them leaves no observable
trace). -/
def cleanupRequest [DecidableEq α] (m : Manager α) (id : IDType α) :
    Bool × Manager α :=
  match lookupReq id m.requests with
  | none => (false, m)
  | some _ =>
      (true, { m with requests := removeReq id m.requests, pending := m.pending - 1 })

/-- `CompleteRequest(id)` delegates to `cleanupRequest` and discards the
result. -/
def CompleteRequest [DecidableEq α] (m : Manager α) (id : IDType α) : Manager α :=
  (cleanupRequest m id).2

/-- `UpdateCallback(id, newCallback)`. -/
def UpdateCallback [DecidableEq α] (m : Manager α) (id : IDType α)
    (newCallback : Option Nat) (now : Int) : Except GoErr Unit × Manager α :=
  match newCallback with
  | none => (.error .errCallbackNil, m)
  | some cb =>
    match lookupReq id m.requests with
    | none => (.error .errRequestNotFound, m)
    | some st =>
        let st2 : requestState α := { st with onTimeout := cb, lastActivity := now }
        (.ok (), { m with requests := replaceReq id st2 m.requests })

/-- The state `ResetTimeout` writes when it reschedules: a fresh
`time.AfterFunc(state.softTimeout, …)` soft timer and a refreshed
`lastActivity`; every other field, the maximum timer included, is kept. -/
def rescheduleSoft (st : requestState α) (now : Int) : requestState α :=
  { st with
    softTimer := some { duration := st.softTimeout, deadline := now + st.softTimeout, active := true },
    lastActivity := now }

/-- `ResetTimeout(id)`: absent id fails with `ErrRequestNotFound`; when the
soft timer exists and its `Stop()` returns false (already fired or already
stopped) the call returns success without touching anything; otherwise the
soft timer is rescheduled with the original `softTimeout` duration. -/
def ResetTimeout [DecidableEq α] (m : Manager α) (id : IDType α) (now : Int) :
    Except GoErr Unit × Manager α :=
  match lookupReq id m.requests with
  | none => (.error .errRequestNotFound, m)
  | some st =>
    match st.softTimer with
    | some t =>
        if !t.active then (.ok (), m)
        else (.ok (), { m with requests := replaceReq id (rescheduleSoft st now) m.requests })
    | none => (.ok (), { m with requests := replaceReq id (rescheduleSoft st now) m.requests })

/-- `StopAll(wait)`: cancel the context, then under the lock collect the
active ids, stop their timers and replace `requests` with a fresh empty
map.  The `sync.WaitGroup` counter is not touched by the sweep — the Go
source has no `wg.Done` on this path.  The `wait` flag only selects
whether `wg.Wait()` runs afterwards; it changes no state, so the returned
state is the same for both flags, and `wg.Wait()` returning is exactly the
proposition `pending = 0`. -/
def StopAll [DecidableEq α] (m : Manager α) (_wait : Bool) :
    List (IDType α) × Manager α :=
  (m.requests.map Prod.fst, { m with cancelled := true, requests := [] })

/-- The dispatch decision of `triggerCallback(state, t)`: return at once
when the context is already cancelled; otherwise capture the callback and
run `cleanupRequest(state.id)`; only when that removal succeeded is the
callback invoked.  The ghost fields record the dispatch: it is appended to
`calls`, and to `executing` until `triggerEnd` models its return.  Note
`wg.Done()` has already happened inside `cleanupRequest` at this point,
before the callback runs. -/
def triggerBegin [DecidableEq α] (m : Manager α) (id : IDType α)
    (t : TimeoutType) : Manager α :=
  if m.cancelled then m
  else
    match cleanupRequest m id with
    | (false, _) => m
    | (true, m1) =>
        { m1 with executing := (id, t) :: m1.executing, calls := (id, t) :: m1.calls }

/-- The return of a dispatched callback (normally or through the panic
recovery): the dispatch leaves `executing`. -/
def triggerEnd [DecidableEq α] (m : Manager α) (id : IDType α)
    (t : TimeoutType) : Manager α :=
  { m with executing := m.executing.erase (id, t) }

/-- One atomic event of an execution: a caller-thread operation or a phase
of a timer-thread `triggerCallback`.  Timer fires are adversarial — a
`fire` event may occur for any id at any time, a superset of the fires Go
timers can produce, so an invariant over all event sequences covers every
real schedule. -/
inductive Event (α : Type)
  | start (id : IDType α) (softTimeout maximumTimeout : Int) (onTimeout : Option Nat) (now : Int)
  | complete (id : IDType α)
  | update (id : IDType α) (newCallback : Option Nat) (now : Int)
  | reset (id : IDType α) (now : Int)
  | fireBegin (id : IDType α) (t : TimeoutType)
  | fireEnd (id : IDType α) (t : TimeoutType)
  | stopAll (wait : Bool)

/-- The state transformer of one event. -/
def step [DecidableEq α] [GoZero α] (m : Manager α) : Event α → Manager α
  | .start id s mx cb now => (StartRequest m id s mx cb now).2
  | .complete id => CompleteRequest m id
  | .update id cb now => (UpdateCallback m id cb now).2
  | .reset id now => (ResetTimeout m id now).2
  | .fireBegin id t => triggerBegin m id t
  | .fireEnd id t => triggerEnd m id t
  | .stopAll w => (StopAll m w).2

/-- Run a sequence of events. -/
def run [DecidableEq α] [GoZero α] (m : Manager α) (es : List (Event α)) : Manager α :=
  es.foldl step m

/-- How many callback dispatches an execution has performed for `id`. -/
def callCount [DecidableEq α] (m : Manager α) (id : IDType α) : Nat :=
  m.calls.countP (fun c => decide (c.1 = id))

/-- What a user timeout callback does when invoked: return normally, or
panic with a value (rendered by `%v` as a string). -/
inductive CallbackBehavior
  | returns
  | panics (v : String)

/-- The observable effects of one guarded callback invocation
(`onTimeoutCopy(state.id, t)` under the `defer`/`recover` block of
`triggerCallback`): whether a panic escapes `triggerCallback`, the
`(id, error-message)` pairs handed to the installed `onError` sink, and
the diagnostic lines printed when no sink is installed. -/
structure DispatchEffects where
  propagated : Option String
  errorSink : List (String × String)
  diagnostics : List String

/-- The `defer`/`recover` block of `triggerCallback`, from the Go
semantics of `recover` in a deferred function: the panic value is caught
there, so nothing propagates; `fmt.Errorf("callback panic: %v", r)` is
delivered to `onError` when one is installed (`hasErrorHandler`), else
`fmt.Printf("Request %v callback panicked: %v\n", …)` emits one line.
`idShown` is `%v` of the request id. -/
def runCallbackGuarded (hasErrorHandler : Bool) (idShown : String)
    (beh : CallbackBehavior) : DispatchEffects :=
  match beh with
  | .returns => { propagated := none, errorSink := [], diagnostics := [] }
  | .panics v =>
      if hasErrorHandler then
        { propagated := none
          errorSink := [(idShown, "callback panic: " ++ v)]
          diagnostics := [] }
      else
        { propagated := none
          errorSink := []
          diagnostics := ["Request " ++ idShown ++ " callback panicked: " ++ v] }

/-- A sequence of `ResetTimeout(id)` calls at the given instants. -/
def applyResets [DecidableEq α] (m : Manager α) (id : IDType α)
    (nows : List Int) : Manager α :=
  nows.foldl (fun mm n => (ResetTimeout mm id n).2) m

/-- The pending-counter lower bound: the `sync.WaitGroup` counter is at
least one more than the number of active requests.  Once true — as it is
right after a `StopAll` sweep that removed a request without `wg.Done()` —
no event sequence ever falsifies it, so the counter never returns to
zero. -/
def PendingLB [DecidableEq α] (m : Manager α) : Prop :=
  m.requests.length + 1 ≤ m.pending

/-- A concrete id. -/
def idA : IDType String := ⟨"a"⟩

/-- A manager with one registered request `"a"` (soft 1ns, max 2ns). -/
def mStarted : Manager String :=
  (StartRequest initManager idA 1 2 (some 0) 0).2

/-- `mStarted` after `StopAll(true)`: the sweep removed `"a"` without
decrementing the counter. -/
def mSwept : Manager String :=
  (StopAll mStarted true).2

/-- `mStarted` after the soft timer's `triggerCallback` has passed the
dispatch decision (`cleanupRequest` succeeded, `wg.Done()` already ran)
while the callback body is still executing. -/
def mDispatched : Manager String :=
  triggerBegin mStarted idA .SoftTimeout

/-- A manager with one registered request `"a"` (soft 5, max 9, registered
at instant 100), for exercising `ResetTimeout`. -/
def c6M : Manager String :=
  (StartRequest initManager idA 5 9 (some 0) 100).2

/-- A trace in which `"a"` is registered with `soft = max` and both timers
fire (the second fire finds the state gone). -/
def demoTrace : List (Event String) :=
  [.start idA 5 5 (some 0) 0,
   .fireBegin idA .SoftTimeout,
   .fireBegin idA .MaximumTimeout,
   .fireEnd idA .SoftTimeout]

/-- The inductive invariant behind at-most-one-dispatch: active keys are
unique and registered in `usedIDs`, an active request has never been
dispatched, no id has been dispatched twice, and a dispatched id is
registered.  The last three tie the dispatch log to the uniqueness
registry: an id re-enters `requests` never, because `StartRequest`
refuses every id in `usedIDs`. -/
structure Inv [DecidableEq α] (m : Manager α) : Prop where
  nodup : (m.requests.map Prod.fst).Nodup
  req_used : ∀ id, lookupReq id m.requests ≠ none → id ∈ m.usedIDs
  req_uncalled : ∀ id, lookupReq id m.requests ≠ none → callCount m id = 0
  call_le : ∀ id, callCount m id ≤ 1
  call_used : ∀ id, 1 ≤ callCount m id → id ∈ m.usedIDs

theorem removeReq_sublist [DecidableEq α] (id : IDType α)
    (l : List (IDType α × requestState α)) : List.Sublist (removeReq id l) l := by
  induction l with
  | nil => simp [removeReq]
  | cons p rest ih =>
    by_cases h : p.1 = id
    · simp only [removeReq, if_pos h]
      exact List.sublist_cons_self p rest
    · simp only [removeReq, if_neg h]
      exact ih.cons₂ p

theorem length_removeReq [DecidableEq α] {id : IDType α}
    {l : List (IDType α × requestState α)} {st : requestState α}
    (h : lookupReq id l = some st) :
    (removeReq id l).length + 1 = l.length := by
  induction l with
  | nil => simp [lookupReq] at h
  | cons p rest ih =>
    by_cases hp : p.1 = id
    · simp [removeReq, hp]
    · simp only [lookupReq, hp, if_false] at h
      simp [removeReq, hp, ih h]

theorem lookupReq_eq_none_iff [DecidableEq α] {id : IDType α}
    {l : List (IDType α × requestState α)} :
    lookupReq id l = none ↔ id ∉ l.map Prod.fst := by
  induction l with
  | nil => simp [lookupReq]
  | cons p rest ih =>
    by_cases hp : p.1 = id
    · simp [lookupReq, hp]
    · simp [lookupReq, hp, ih, Ne.symm hp]

theorem lookupReq_removeReq_self [DecidableEq α] {id : IDType α}
    {l : List (IDType α × requestState α)} (h : (l.map Prod.fst).Nodup) :
    lookupReq id (removeReq id l) = none := by
  induction l with
  | nil => simp [removeReq, lookupReq]
  | cons p rest ih =>
    simp only [List.map_cons, List.nodup_cons] at h
    by_cases hp : p.1 = id
    · rw [removeReq, if_pos hp, lookupReq_eq_none_iff]
      exact hp ▸ h.1
    · rw [removeReq, if_neg hp, lookupReq, if_neg hp]
      exact ih h.2

theorem lookupReq_removeReq_ne [DecidableEq α] {k id : IDType α}
    (hne : k ≠ id) (l : List (IDType α × requestState α)) :
    lookupReq k (removeReq id l) = lookupReq k l := by
  induction l with
  | nil => simp [removeReq]
  | cons p rest ih =>
    by_cases hp : p.1 = id
    · rw [removeReq, if_pos hp, lookupReq, if_neg (by rw [hp]; exact fun h => hne h.symm)]
    · by_cases hk : p.1 = k
      · rw [removeReq, if_neg hp, lookupReq, if_pos hk, lookupReq, if_pos hk]
      · rw [removeReq, if_neg hp, lookupReq, if_neg hk, lookupReq, if_neg hk, ih]

theorem lookupReq_removeReq_ne_none [DecidableEq α] {k id : IDType α}
    {l : List (IDType α × requestState α)} (hn : (l.map Prod.fst).Nodup)
    (h : lookupReq k (removeReq id l) ≠ none) : lookupReq k l ≠ none := by
  by_cases hk : k = id
  · subst hk; exact absurd (lookupReq_removeReq_self hn) h
  · rwa [lookupReq_removeReq_ne hk] at h

theorem map_fst_replaceReq [DecidableEq α] (id : IDType α) (st : requestState α)
    (l : List (IDType α × requestState α)) :
    (replaceReq id st l).map Prod.fst = l.map Prod.fst := by
  induction l with
  | nil => simp [replaceReq]
  | cons p rest ih =>
    by_cases hp : p.1 = id
    · simp [replaceReq, hp]
    · simp [replaceReq, hp, ih]

theorem length_replaceReq [DecidableEq α] (id : IDType α) (st : requestState α)
    (l : List (IDType α × requestState α)) :
    (replaceReq id st l).length = l.length := by
  have := congrArg List.length (map_fst_replaceReq id st l)
  simpa using this

theorem lookupReq_replaceReq_self [DecidableEq α] {id : IDType α}
    {l : List (IDType α × requestState α)} {st0 : requestState α}
    (st : requestState α) (h : lookupReq id l = some st0) :
    lookupReq id (replaceReq id st l) = some st := by
  induction l with
  | nil => simp [lookupReq] at h
  | cons p rest ih =>
    by_cases hp : p.1 = id
    · rw [replaceReq, if_pos hp, lookupReq, if_pos rfl]
    · rw [lookupReq, if_neg hp] at h
      rw [replaceReq, if_neg hp, lookupReq, if_neg hp, ih h]

theorem lookupReq_replaceReq_ne [DecidableEq α] {k id : IDType α}
    (hne : k ≠ id) (st : requestState α) (l : List (IDType α × requestState α)) :
    lookupReq k (replaceReq id st l) = lookupReq k l := by
  induction l with
  | nil => simp [replaceReq]
  | cons p rest ih =>
    by_cases hp : p.1 = id
    · rw [replaceReq, if_pos hp, lookupReq, if_neg (fun h => hne h.symm), lookupReq,
        if_neg (by rw [hp]; exact fun h => hne h.symm)]
    · by_cases hk : p.1 = k
      · rw [replaceReq, if_neg hp, lookupReq, if_pos hk, lookupReq, if_pos hk]
      · rw [replaceReq, if_neg hp, lookupReq, if_neg hk, lookupReq, if_neg hk, ih]

theorem lookupReq_replaceReq_ne_none [DecidableEq α] {k id : IDType α}
    {l : List (IDType α × requestState α)} {st : requestState α}
    (h : lookupReq k (replaceReq id st l) ≠ none) : lookupReq k l ≠ none := by
  by_cases hk : k = id
  · subst hk
    intro hnone
    rw [lookupReq_eq_none_iff] at hnone
    apply h
    rw [lookupReq_eq_none_iff, map_fst_replaceReq]
    exact hnone
  · rwa [lookupReq_replaceReq_ne hk] at h

/-- Equation: `StartRequest` with a nil callback. -/
theorem StartRequest_nilCb [DecidableEq α] [GoZero α] (m : Manager α)
    (id : IDType α) (s mx now : Int) :
    StartRequest m id s mx none now = (.error .errCallbackNil, m) := rfl

/-- Equation: `StartRequest` with an empty id. -/
theorem StartRequest_emptyID [DecidableEq α] [GoZero α] {m : Manager α}
    {id : IDType α} (s mx : Int) (k : Nat) (now : Int) (he : id.IsEmpty = true) :
    StartRequest m id s mx (some k) now = (.error .errEmptyRequestID, m) := by
  simp [StartRequest, he]

/-- Equation: `StartRequest` with an already used id. -/
theorem StartRequest_dup [DecidableEq α] [GoZero α] {m : Manager α}
    {id : IDType α} (s mx : Int) (k : Nat) (now : Int)
    (he : id.IsEmpty = false) (hd : id ∈ m.usedIDs) :
    StartRequest m id s mx (some k) now = (.error .errDuplicateRequestID, m) := by
  simp [StartRequest, he, hd]

/-- Equation: `StartRequest` with a non-positive soft timeout — the id is
already in `usedIDs` when the check fails. -/
theorem StartRequest_softBad [DecidableEq α] [GoZero α] {m : Manager α}
    {id : IDType α} {s : Int} (mx : Int) (k : Nat) (now : Int)
    (he : id.IsEmpty = false) (hd : id ∉ m.usedIDs) (hs : s ≤ 0) :
    StartRequest m id s mx (some k) now =
      (.error .errSoftTimeoutNotPositive, { m with usedIDs := id :: m.usedIDs }) := by
  simp [StartRequest, he, hd, hs]

/-- Equation: `StartRequest` with a non-positive maximum timeout. -/
theorem StartRequest_maxBad [DecidableEq α] [GoZero α] {m : Manager α}
    {id : IDType α} {s mx : Int} (k : Nat) (now : Int)
    (he : id.IsEmpty = false) (hd : id ∉ m.usedIDs) (hs : ¬ s ≤ 0) (hm : mx ≤ 0) :
    StartRequest m id s mx (some k) now =
      (.error .errMaximumTimeoutNotPositive, { m with usedIDs := id :: m.usedIDs }) := by
  simp [StartRequest, he, hd, hs, hm]

/-- Equation: `StartRequest` with `soft > max`. -/
theorem StartRequest_softGtMax [DecidableEq α] [GoZero α] {m : Manager α}
    {id : IDType α} {s mx : Int} (k : Nat) (now : Int)
    (he : id.IsEmpty = false) (hd : id ∉ m.usedIDs) (hs : ¬ s ≤ 0) (hm : ¬ mx ≤ 0)
    (hsm : s > mx) :
    StartRequest m id s mx (some k) now =
      (.error .errSoftTimeoutExceedsMaximum, { m with usedIDs := id :: m.usedIDs }) := by
  simp [StartRequest, he, hd, hs, hm, hsm]

/-- Equation: successful `StartRequest`. -/
theorem StartRequest_ok [DecidableEq α] [GoZero α] {m : Manager α}
    {id : IDType α} {s mx : Int} (k : Nat) (now : Int)
    (he : id.IsEmpty = false) (hd : id ∉ m.usedIDs) (hs : ¬ s ≤ 0) (hm : ¬ mx ≤ 0)
    (hsm : ¬ s > mx) :
    StartRequest m id s mx (some k) now =
      (.ok (), { m with
                 usedIDs := id :: m.usedIDs
                 pending := m.pending + 1
                 requests := (id, startState id s mx k now) :: m.requests }) := by
  simp [StartRequest, he, hd, hs, hm, hsm]

/-- Equation: `cleanupRequest` on an absent id. -/
theorem cleanupRequest_none [DecidableEq α] {m : Manager α} {id : IDType α}
    (h : lookupReq id m.requests = none) : cleanupRequest m id = (false, m) := by
  simp [cleanupRequest, h]

/-- Equation: `cleanupRequest` on a present id removes it and runs
`wg.Done()`. -/
theorem cleanupRequest_some [DecidableEq α] {m : Manager α} {id : IDType α}
    {st : requestState α} (h : lookupReq id m.requests = some st) :
    cleanupRequest m id =
      (true, { m with requests := removeReq id m.requests, pending := m.pending - 1 }) := by
  simp [cleanupRequest, h]

/-- Equation: `UpdateCallback` rewrites the callback and `lastActivity` of
the found state. -/
theorem UpdateCallback_some [DecidableEq α] {m : Manager α} {id : IDType α}
    {st : requestState α} (k : Nat) (now : Int)
    (h : lookupReq id m.requests = some st) :
    UpdateCallback m id (some k) now =
      (.ok (), { m with requests := replaceReq id { st with onTimeout := k, lastActivity := now } m.requests }) := by
  simp [UpdateCallback, h]

/-- Equation: `ResetTimeout` on an absent id. -/
theorem ResetTimeout_none [DecidableEq α] {m : Manager α} {id : IDType α}
    (now : Int) (h : lookupReq id m.requests = none) :
    ResetTimeout m id now = (.error .errRequestNotFound, m) := by
  simp [ResetTimeout, h]

/-- Equation: `ResetTimeout` when the soft timer's `Stop()` returns false
(already fired or stopped): success, nothing rescheduled. -/
theorem ResetTimeout_stopFalse [DecidableEq α] {m : Manager α} {id : IDType α}
    {st : requestState α} {t : GoTimer} (now : Int)
    (h : lookupReq id m.requests = some st) (ht : st.softTimer = some t)
    (ha : t.active = false) :
    ResetTimeout m id now = (.ok (), m) := by
  simp [ResetTimeout, h, ht, ha]

/-- Equation: `ResetTimeout` when a live (or absent) soft timer lets the
reschedule happen. -/
theorem ResetTimeout_resched [DecidableEq α] {m : Manager α} {id : IDType α}
    {st : requestState α} (now : Int)
    (h : lookupReq id m.requests = some st)
    (hact : st.softTimer = none ∨ ∃ t, st.softTimer = some t ∧ t.active = true) :
    ResetTimeout m id now =
      (.ok (), { m with requests := replaceReq id (rescheduleSoft st now) m.requests }) := by
  rcases hact with hn | ⟨t, ht, ha⟩
  · simp [ResetTimeout, h, hn]
  · simp [ResetTimeout, h, ht, ha]

/-- Equation: `triggerCallback` returns at once under a cancelled context. -/
theorem triggerBegin_cancelled [DecidableEq α] {m : Manager α}
    (id : IDType α) (t : TimeoutType) (hc : m.cancelled = true) :
    triggerBegin m id t = m := by
  simp [triggerBegin, hc]

/-- Equation: `triggerCallback` does not dispatch when the state was
already removed. -/
theorem triggerBegin_absent [DecidableEq α] {m : Manager α}
    (id : IDType α) (t : TimeoutType) (hc : m.cancelled = false)
    (h : lookupReq id m.requests = none) :
    triggerBegin m id t = m := by
  simp [triggerBegin, hc, cleanupRequest_none h]

/-- Equation: `triggerCallback` dispatches exactly when `cleanupRequest`
found and removed the state; the counter decrement (`wg.Done()` inside
`cleanupRequest`) is part of the same step, before the callback body runs. -/
theorem triggerBegin_dispatch [DecidableEq α] {m : Manager α}
    {id : IDType α} {st : requestState α} (t : TimeoutType)
    (hc : m.cancelled = false) (h : lookupReq id m.requests = some st) :
    triggerBegin m id t =
      { m with
        requests := removeReq id m.requests
        pending := m.pending - 1
        executing := (id, t) :: m.executing
        calls := (id, t) :: m.calls } := by
  simp [triggerBegin, hc, cleanupRequest_some h]

theorem inv_init [DecidableEq α] : Inv (initManager : Manager α) where
  nodup := List.nodup_nil
  req_used := fun _ hk => absurd rfl hk
  req_uncalled := fun _ hk => absurd rfl hk
  call_le := fun _ => Nat.zero_le 1
  call_used := fun _ hk => absurd hk (by simp [callCount, initManager])

theorem inv_usedCons [DecidableEq α] {m : Manager α} (h : Inv m) (id : IDType α) :
    Inv { m with usedIDs := id :: m.usedIDs } where
  nodup := h.nodup
  req_used := fun k hk => List.mem_cons_of_mem _ (h.req_used k hk)
  req_uncalled := h.req_uncalled
  call_le := h.call_le
  call_used := fun k hk => List.mem_cons_of_mem _ (h.call_used k hk)

theorem inv_startSuccess [DecidableEq α] {m : Manager α} (h : Inv m)
    {id : IDType α} (hid : id ∉ m.usedIDs) (st : requestState α) :
    Inv { m with
          usedIDs := id :: m.usedIDs
          pending := m.pending + 1
          requests := (id, st) :: m.requests } where
  nodup := by
    simp only [List.map_cons, List.nodup_cons]
    refine ⟨fun hin => hid (h.req_used id fun hl => ?_), h.nodup⟩
    exact (lookupReq_eq_none_iff.mp hl) hin
  req_used := by
    intro k hk
    by_cases hkid : k = id
    · exact hkid ▸ List.mem_cons_self id _
    · simp only [lookupReq] at hk
      rw [if_neg (fun hh : id = k => hkid hh.symm)] at hk
      exact List.mem_cons_of_mem _ (h.req_used k hk)
  req_uncalled := by
    intro k hk
    by_cases hkid : k = id
    · subst hkid
      show callCount m k = 0
      by_contra hne
      exact hid (h.call_used k (Nat.one_le_iff_ne_zero.mpr hne))
    · simp only [lookupReq] at hk
      rw [if_neg (fun hh : id = k => hkid hh.symm)] at hk
      exact h.req_uncalled k hk
  call_le := h.call_le
  call_used := fun k hk => List.mem_cons_of_mem _ (h.call_used k hk)

theorem inv_start [DecidableEq α] [GoZero α] {m : Manager α} (h : Inv m)
    (id : IDType α) (s mx : Int) (cb : Option Nat) (now : Int) :
    Inv (StartRequest m id s mx cb now).2 := by
  rcases cb with _ | k
  · exact h
  · cases he : id.IsEmpty with
    | true => rw [StartRequest_emptyID s mx k now he]; exact h
    | false =>
      by_cases hd : id ∈ m.usedIDs
      · rw [StartRequest_dup s mx k now he hd]; exact h
      · by_cases hs : s ≤ 0
        · rw [StartRequest_softBad mx k now he hd hs]; exact inv_usedCons h id
        · by_cases hm : mx ≤ 0
          · rw [StartRequest_maxBad k now he hd hs hm]; exact inv_usedCons h id
          · by_cases hsm : s > mx
            · rw [StartRequest_softGtMax k now he hd hs hm hsm]; exact inv_usedCons h id
            · rw [StartRequest_ok k now he hd hs hm hsm]
              exact inv_startSuccess h hd _

theorem inv_cleanup [DecidableEq α] {m : Manager α} (h : Inv m) (id : IDType α) :
    Inv (cleanupRequest m id).2 := by
  cases hl : lookupReq id m.requests with
  | none => rw [cleanupRequest_none hl]; exact h
  | some st =>
    rw [cleanupRequest_some hl]
    exact
      { nodup := List.Nodup.sublist
          ((removeReq_sublist id m.requests).map Prod.fst) h.nodup
        req_used := fun k hk => h.req_used k (lookupReq_removeReq_ne_none h.nodup hk)
        req_uncalled := fun k hk => h.req_uncalled k (lookupReq_removeReq_ne_none h.nodup hk)
        call_le := h.call_le
        call_used := h.call_used }

theorem inv_replace [DecidableEq α] {m : Manager α} (h : Inv m)
    (id : IDType α) (st : requestState α) :
    Inv { m with requests := replaceReq id st m.requests } where
  nodup := by rw [map_fst_replaceReq]; exact h.nodup
  req_used := fun k hk => h.req_used k (lookupReq_replaceReq_ne_none hk)
  req_uncalled := fun k hk => h.req_uncalled k (lookupReq_replaceReq_ne_none hk)
  call_le := h.call_le
  call_used := h.call_used

theorem inv_update [DecidableEq α] {m : Manager α} (h : Inv m)
    (id : IDType α) (cb : Option Nat) (now : Int) :
    Inv (UpdateCallback m id cb now).2 := by
  rcases cb with _ | k
  · exact h
  · cases hl : lookupReq id m.requests with
    | none => simp only [UpdateCallback, hl]; exact h
    | some st => rw [UpdateCallback_some k now hl]; exact inv_replace h id _

theorem inv_reset [DecidableEq α] {m : Manager α} (h : Inv m)
    (id : IDType α) (now : Int) :
    Inv (ResetTimeout m id now).2 := by
  cases hl : lookupReq id m.requests with
  | none => rw [ResetTimeout_none now hl]; exact h
  | some st =>
    cases ht : st.softTimer with
    | none => rw [ResetTimeout_resched now hl (Or.inl ht)]; exact inv_replace h id _
    | some t =>
      cases ha : t.active with
      | false => rw [ResetTimeout_stopFalse now hl ht ha]; exact h
      | true =>
        rw [ResetTimeout_resched now hl (Or.inr ⟨t, ht, ha⟩)]
        exact inv_replace h id _

theorem inv_stopAll [DecidableEq α] {m : Manager α} (h : Inv m) (w : Bool) :
    Inv (StopAll m w).2 where
  nodup := List.nodup_nil
  req_used := fun _ hk => absurd rfl hk
  req_uncalled := fun _ hk => absurd rfl hk
  call_le := h.call_le
  call_used := h.call_used

theorem callCount_calls_cons [DecidableEq α] {m m2 : Manager α}
    (id : IDType α) (t : TimeoutType) (k : IDType α)
    (hc : m2.calls = (id, t) :: m.calls) :
    callCount m2 k = callCount m k + if id = k then 1 else 0 := by
  simp only [callCount, hc, List.countP_cons]
  by_cases hik : id = k <;> simp [hik]

theorem inv_fireBegin [DecidableEq α] {m : Manager α} (h : Inv m)
    (id : IDType α) (t : TimeoutType) :
    Inv (triggerBegin m id t) := by
  cases hc : m.cancelled with
  | true => rw [triggerBegin_cancelled id t hc]; exact h
  | false =>
    cases hl : lookupReq id m.requests with
    | none => rw [triggerBegin_absent id t hc hl]; exact h
    | some st =>
      rw [triggerBegin_dispatch t hc hl]
      have hcnt : ∀ k, callCount
          { m with
            requests := removeReq id m.requests
            pending := m.pending - 1
            executing := (id, t) :: m.executing
            calls := (id, t) :: m.calls } k =
          callCount m k + if id = k then 1 else 0 :=
        fun k => callCount_calls_cons id t k rfl
      refine
        { nodup := List.Nodup.sublist
            ((removeReq_sublist id m.requests).map Prod.fst) h.nodup
          req_used := fun k hk =>
            h.req_used k (lookupReq_removeReq_ne_none h.nodup hk)
          req_uncalled := ?_, call_le := ?_, call_used := ?_ }
      · intro k hk
        rw [hcnt k]
        by_cases hkid : k = id
        · subst hkid
          exact absurd (lookupReq_removeReq_self h.nodup) hk
        · rw [if_neg (fun hh : id = k => hkid hh.symm), Nat.add_zero]
          exact h.req_uncalled k ((lookupReq_removeReq_ne hkid m.requests) ▸ hk)
      · intro k
        rw [hcnt k]
        by_cases hik : id = k
        · subst hik
          have h0 : callCount m id = 0 :=
            h.req_uncalled id (by rw [hl]; exact fun hh => Option.noConfusion hh)
          simp [h0]
        · rw [if_neg hik, Nat.add_zero]
          exact h.call_le k
      · intro k hk
        by_cases hik : id = k
        · subst hik
          exact h.req_used id (by rw [hl]; exact fun hh => Option.noConfusion hh)
        · rw [hcnt k, if_neg hik, Nat.add_zero] at hk
          exact h.call_used k hk

theorem inv_fireEnd [DecidableEq α] {m : Manager α} (h : Inv m)
    (id : IDType α) (t : TimeoutType) :
    Inv (triggerEnd m id t) where
  nodup := h.nodup
  req_used := h.req_used
  req_uncalled := h.req_uncalled
  call_le := h.call_le
  call_used := h.call_used

theorem inv_step [DecidableEq α] [GoZero α] {m : Manager α} (h : Inv m)
    (e : Event α) : Inv (step m e) := by
  cases e with
  | start id s mx cb now => exact inv_start h id s mx cb now
  | complete id => exact inv_cleanup h id
  | update id cb now => exact inv_update h id cb now
  | reset id now => exact inv_reset h id now
  | fireBegin id t => exact inv_fireBegin h id t
  | fireEnd id t => exact inv_fireEnd h id t
  | stopAll w => exact inv_stopAll h w

theorem run_preserves [DecidableEq α] [GoZero α] {P : Manager α → Prop}
    (hstep : ∀ m e, P m → P (step m e)) :
    ∀ (es : List (Event α)) (m : Manager α), P m → P (run m es) := by
  intro es
  induction es with
  | nil => intro m h; exact h
  | cons e rest ih =>
    intro m h
    exact ih (step m e) (hstep m e h)

theorem inv_run [DecidableEq α] [GoZero α] (es : List (Event α)) :
    Inv (run initManager es) :=
  @run_preserves α _ _ Inv (fun _ e h => inv_step h e) es initManager inv_init

theorem pendingLB_step [DecidableEq α] [GoZero α] {m : Manager α} (h : PendingLB m)
    (e : Event α) : PendingLB (step m e) := by
  unfold PendingLB at h ⊢
  cases e with
  | start id s mx cb now =>
    simp only [step]
    rcases cb with _ | k
    · exact h
    · cases he : id.IsEmpty with
      | true => rw [StartRequest_emptyID s mx k now he]; exact h
      | false =>
        by_cases hd : id ∈ m.usedIDs
        · rw [StartRequest_dup s mx k now he hd]; exact h
        · by_cases hs : s ≤ 0
          · rw [StartRequest_softBad mx k now he hd hs]; exact h
          · by_cases hm : mx ≤ 0
            · rw [StartRequest_maxBad k now he hd hs hm]; exact h
            · by_cases hsm : s > mx
              · rw [StartRequest_softGtMax k now he hd hs hm hsm]; exact h
              · rw [StartRequest_ok k now he hd hs hm hsm]
                show ((id, startState id s mx k now) :: m.requests).length + 1 ≤ m.pending + 1
                simp only [List.length_cons]
                omega
  | complete id =>
    simp only [step, CompleteRequest]
    cases hl : lookupReq id m.requests with
    | none => rw [cleanupRequest_none hl]; exact h
    | some st =>
      rw [cleanupRequest_some hl]
      have hlen := length_removeReq hl
      show (removeReq id m.requests).length + 1 ≤ m.pending - 1
      omega
  | update id cb now =>
    simp only [step]
    rcases cb with _ | k
    · exact h
    · cases hl : lookupReq id m.requests with
      | none => simp only [UpdateCallback, hl]; exact h
      | some st =>
        rw [UpdateCallback_some k now hl]
        show (replaceReq id _ m.requests).length + 1 ≤ m.pending
        rw [length_replaceReq]
        exact h
  | reset id now =>
    simp only [step]
    cases hl : lookupReq id m.requests with
    | none => rw [ResetTimeout_none now hl]; exact h
    | some st =>
      cases ht : st.softTimer with
      | none =>
        rw [ResetTimeout_resched now hl (Or.inl ht)]
        show (replaceReq id _ m.requests).length + 1 ≤ m.pending
        rw [length_replaceReq]
        exact h
      | some t =>
        cases ha : t.active with
        | false => rw [ResetTimeout_stopFalse now hl ht ha]; exact h
        | true =>
          rw [ResetTimeout_resched now hl (Or.inr ⟨t, ht, ha⟩)]
          show (replaceReq id _ m.requests).length + 1 ≤ m.pending
          rw [length_replaceReq]
          exact h
  | fireBegin id t =>
    simp only [step]
    cases hc : m.cancelled with
    | true => rw [triggerBegin_cancelled id t hc]; exact h
    | false =>
      cases hl : lookupReq id m.requests with
      | none => rw [triggerBegin_absent id t hc hl]; exact h
      | some st =>
        rw [triggerBegin_dispatch t hc hl]
        have hlen := length_removeReq hl
        show (removeReq id m.requests).length + 1 ≤ m.pending - 1
        omega
  | fireEnd id t => exact h
  | stopAll w =>
    simp only [step, StopAll]
    show ([] : List (IDType α × requestState α)).length + 1 ≤ m.pending
    simp only [List.length_nil]
    omega

theorem pendingLB_run [DecidableEq α] [GoZero α] {m : Manager α} (h : PendingLB m)
    (es : List (Event α)) : PendingLB (run m es) :=
  @run_preserves α _ _ PendingLB (fun _ e hh => pendingLB_step hh e) es m h

theorem usedIDs_mono_step [DecidableEq α] [GoZero α] (m : Manager α) (e : Event α)
    {id0 : IDType α} (h : id0 ∈ m.usedIDs) : id0 ∈ (step m e).usedIDs := by
  cases e with
  | start id s mx cb now =>
    simp only [step]
    rcases cb with _ | k
    · exact h
    · cases he : id.IsEmpty with
      | true => rw [StartRequest_emptyID s mx k now he]; exact h
      | false =>
        by_cases hd : id ∈ m.usedIDs
        · rw [StartRequest_dup s mx k now he hd]; exact h
        · by_cases hs : s ≤ 0
          · rw [StartRequest_softBad mx k now he hd hs]; exact List.mem_cons_of_mem _ h
          · by_cases hm : mx ≤ 0
            · rw [StartRequest_maxBad k now he hd hs hm]; exact List.mem_cons_of_mem _ h
            · by_cases hsm : s > mx
              · rw [StartRequest_softGtMax k now he hd hs hm hsm]
                exact List.mem_cons_of_mem _ h
              · rw [StartRequest_ok k now he hd hs hm hsm]
                exact List.mem_cons_of_mem _ h
  | complete id =>
    simp only [step, CompleteRequest]
    cases hl : lookupReq id m.requests with
    | none => rw [cleanupRequest_none hl]; exact h
    | some st => rw [cleanupRequest_some hl]; exact h
  | update id cb now =>
    simp only [step]
    rcases cb with _ | k
    · exact h
    · cases hl : lookupReq id m.requests with
      | none => simp only [UpdateCallback, hl]; exact h
      | some st => rw [UpdateCallback_some k now hl]; exact h
  | reset id now =>
    simp only [step]
    cases hl : lookupReq id m.requests with
    | none => rw [ResetTimeout_none now hl]; exact h
    | some st =>
      cases ht : st.softTimer with
      | none => rw [ResetTimeout_resched now hl (Or.inl ht)]; exact h
      | some t =>
        cases ha : t.active with
        | false => rw [ResetTimeout_stopFalse now hl ht ha]; exact h
        | true => rw [ResetTimeout_resched now hl (Or.inr ⟨t, ht, ha⟩)]; exact h
  | fireBegin id t =>
    simp only [step]
    cases hc : m.cancelled with
    | true => rw [triggerBegin_cancelled id t hc]; exact h
    | false =>
      cases hl : lookupReq id m.requests with
      | none => rw [triggerBegin_absent id t hc hl]; exact h
      | some st => rw [triggerBegin_dispatch t hc hl]; exact h
  | fireEnd id t => exact h
  | stopAll w => exact h

theorem StartRequest_ok_inversion [DecidableEq α] [GoZero α] {m : Manager α}
    {id : IDType α} {s mx : Int} {cb : Option Nat} {now : Int}
    (h : (StartRequest m id s mx cb now).1 = .ok ()) :
    id.IsEmpty = false ∧ id ∈ (StartRequest m id s mx cb now).2.usedIDs := by
  rcases cb with _ | k
  · rw [StartRequest_nilCb] at h; simp at h
  · cases he : id.IsEmpty with
    | true => rw [StartRequest_emptyID s mx k now he] at h; simp at h
    | false =>
      by_cases hd : id ∈ m.usedIDs
      · rw [StartRequest_dup s mx k now he hd] at h; simp at h
      · by_cases hs : s ≤ 0
        · rw [StartRequest_softBad mx k now he hd hs] at h; simp at h
        · by_cases hm : mx ≤ 0
          · rw [StartRequest_maxBad k now he hd hs hm] at h; simp at h
          · by_cases hsm : s > mx
            · rw [StartRequest_softGtMax k now he hd hs hm hsm] at h; simp at h
            · rw [StartRequest_ok k now he hd hs hm hsm]
              exact ⟨rfl, List.mem_cons_self _ _⟩

/-- C1: the spec claims that each request state removed by `StopAll`'s
sweep decrements the pending-callbacks counter, so that `StopAll(true)`
terminates with the count at zero even when active requests whose timers
never fired are still present at shutdown.  The code refutes this: the
sweep in `StopAll` never calls `wg.Done()`.  After registering `"a"` and
running the `StopAll` sweep, the active table is empty and the context
cancelled, yet the counter is 1, and no continuation of the execution
ever brings it below 1 — so the `wg.Wait()` that `StopAll(true)` runs
after the sweep never returns. -/
theorem stopAll_sweep_leaks_pending_counter :
    mSwept.pending = 1 ∧ mSwept.requests = [] ∧ mSwept.cancelled = true ∧
    ∀ es : List (Event String), 1 ≤ (run mSwept es).pending := by
  refine ⟨rfl, rfl, rfl, fun es => ?_⟩
  have h0 : PendingLB mSwept := by
    unfold PendingLB
    show ([] : List (IDType String × requestState String)).length + 1 ≤ 1
    simp
  have h1 := pendingLB_run h0 es
  unfold PendingLB at h1
  omega

/-- C2: the spec claims the pending-callbacks counter never reaches zero
while a dispatched timeout callback is still executing, so that
`StopAll(true)` joins running callbacks.  The code refutes this:
`wg.Done()` runs inside `cleanupRequest`, before `triggerCallback` invokes
the callback.  After the dispatch decision for `"a"` the counter is
already 0 while the callback is still executing, and the state `StopAll`
returns in that situation still has the counter at 0 with the callback
executing — `wg.Wait()` would return at once. -/
theorem pending_zero_while_callback_executes :
    mDispatched.executing = [(idA, .SoftTimeout)] ∧ mDispatched.pending = 0 ∧
    (StopAll mDispatched true).2.pending = 0 ∧
    (StopAll mDispatched true).2.executing = [(idA, .SoftTimeout)] :=
  ⟨rfl, rfl, rfl, rfl⟩

/-- C3: the timeout callback is dispatched at most once per registered id
over the whole session: `triggerCallback` returns without dispatching
under a cancelled shutdown token and when the state was already removed,
and over every event interleaving — both timers firing included, also
with `soft = max` — the dispatch count of any id never exceeds one. -/
theorem callback_dispatched_at_most_once {α : Type} [DecidableEq α] [GoZero α] :
    (∀ (m : Manager α) (id : IDType α) (t : TimeoutType),
        m.cancelled = true → triggerBegin m id t = m) ∧
    (∀ (m : Manager α) (id : IDType α) (t : TimeoutType),
        lookupReq id m.requests = none → (triggerBegin m id t).calls = m.calls) ∧
    (∀ (es : List (Event α)) (id : IDType α),
        callCount (run initManager es) id ≤ 1) := by
  refine ⟨fun m id t hc => triggerBegin_cancelled id t hc,
    fun m id t hl => ?_, fun es id => (inv_run es).call_le id⟩
  cases hc : m.cancelled with
  | true => rw [triggerBegin_cancelled id t hc]
  | false => rw [triggerBegin_absent id t hc hl]

theorem callback_dispatched_at_most_once_witness :
    triggerBegin mSwept idA .SoftTimeout = mSwept ∧
    callCount (run initManager demoTrace) idA ≤ 1 :=
  ⟨callback_dispatched_at_most_once.1 mSwept idA .SoftTimeout rfl,
   callback_dispatched_at_most_once.2.2 demoTrace idA⟩

/-- C4: `usedIDs` grows monotonically under every operation — no event,
`CompleteRequest`, a timer fire, `ResetTimeout` or `StopAll` included,
removes an id from it — and therefore an id whose `StartRequest` once
succeeded draws `ErrDuplicateRequestID` from every later `StartRequest`,
whatever happened in between (its termination included). -/
theorem usedIDs_monotone_and_sticky {α : Type} [DecidableEq α] [GoZero α] :
    (∀ (m : Manager α) (e : Event α) (id0 : IDType α),
        id0 ∈ m.usedIDs → id0 ∈ (step m e).usedIDs) ∧
    (∀ (m : Manager α) (id : IDType α) (s mx : Int) (cb : Option Nat) (now : Int)
        (es : List (Event α)) (s2 mx2 : Int) (k2 : Nat) (now2 : Int),
      (StartRequest m id s mx cb now).1 = .ok () →
      (StartRequest (run (StartRequest m id s mx cb now).2 es) id s2 mx2 (some k2) now2).1 =
        .error .errDuplicateRequestID) := by
  constructor
  · exact fun m e id0 h => usedIDs_mono_step m e h
  · intro m id s mx cb now es s2 mx2 k2 now2 hok
    obtain ⟨he, hmem⟩ := StartRequest_ok_inversion hok
    have hmem2 : id ∈ (run (StartRequest m id s mx cb now).2 es).usedIDs :=
      @run_preserves α _ _ (fun mm => id ∈ mm.usedIDs)
        (fun mm e hh => usedIDs_mono_step mm e hh) es _ hmem
    rw [StartRequest_dup s2 mx2 k2 now2 he hmem2]

theorem usedIDs_monotone_and_sticky_witness :
    (StartRequest (run (StartRequest initManager idA 1 2 (some 0) 0).2
        [.complete idA]) idA 3 4 (some 1) 9).1 = .error .errDuplicateRequestID :=
  usedIDs_monotone_and_sticky.2 initManager idA 1 2 (some 0) 0 [.complete idA] 3 4 1 9 rfl

/-- C5: `StartRequest` checks its preconditions in source order — non-nil
callback, non-empty id, unused id, `soft > 0`, `max > 0`, `soft ≤ max` —
returning the sentinel of the first failing check, and returns success on
every input passing all six, `soft = max` included. -/
theorem StartRequest_precondition_order {α : Type} [DecidableEq α] [GoZero α]
    (m : Manager α) (id : IDType α) (s mx : Int) (k : Nat) (now : Int) :
    (StartRequest m id s mx none now).1 = .error .errCallbackNil ∧
    (id.IsEmpty = true →
      (StartRequest m id s mx (some k) now).1 = .error .errEmptyRequestID) ∧
    (id.IsEmpty = false → id ∈ m.usedIDs →
      (StartRequest m id s mx (some k) now).1 = .error .errDuplicateRequestID) ∧
    (id.IsEmpty = false → id ∉ m.usedIDs → s ≤ 0 →
      (StartRequest m id s mx (some k) now).1 = .error .errSoftTimeoutNotPositive) ∧
    (id.IsEmpty = false → id ∉ m.usedIDs → 0 < s → mx ≤ 0 →
      (StartRequest m id s mx (some k) now).1 = .error .errMaximumTimeoutNotPositive) ∧
    (id.IsEmpty = false → id ∉ m.usedIDs → 0 < s → 0 < mx → mx < s →
      (StartRequest m id s mx (some k) now).1 = .error .errSoftTimeoutExceedsMaximum) ∧
    (id.IsEmpty = false → id ∉ m.usedIDs → 0 < s → 0 < mx → s ≤ mx →
      (StartRequest m id s mx (some k) now).1 = .ok ()) := by
  refine ⟨rfl, ?_, ?_, ?_, ?_, ?_, ?_⟩
  · intro he; rw [StartRequest_emptyID s mx k now he]
  · intro he hd; rw [StartRequest_dup s mx k now he hd]
  · intro he hd hs; rw [StartRequest_softBad mx k now he hd hs]
  · intro he hd hs hm
    rw [StartRequest_maxBad k now he hd (not_le.mpr hs) hm]
  · intro he hd hs hm hsm
    rw [StartRequest_softGtMax k now he hd (not_le.mpr hs) (not_le.mpr hm) hsm]
  · intro he hd hs hm hsm
    rw [StartRequest_ok k now he hd (not_le.mpr hs) (not_le.mpr hm) (not_lt.mpr hsm)]

theorem StartRequest_precondition_order_witness :
    (StartRequest initManager idA 5 5 (some 0) 0).1 = .ok () :=
  (StartRequest_precondition_order initManager idA 5 5 0 0).2.2.2.2.2.2
    (by decide) (by simp [initManager]) (by decide) (by decide) (by decide)

/-- C10: a `StartRequest` that fails one of the three timeout checks for
a fresh non-empty id has already inserted the id into `usedIDs` and does
not roll it back: no state or timer is created — `requests` and the
pending counter are unchanged — yet every later `StartRequest` with that
id, valid parameters included, returns `ErrDuplicateRequestID`. -/
theorem StartRequest_timeout_failure_burns_id {α : Type} [DecidableEq α] [GoZero α]
    (m : Manager α) (id : IDType α) (s mx : Int) (k : Nat) (now : Int)
    (he : id.IsEmpty = false) (hd : id ∉ m.usedIDs)
    (hbad : s ≤ 0 ∨ mx ≤ 0 ∨ mx < s) :
    (∃ e, (StartRequest m id s mx (some k) now).1 = .error e ∧
        (e = .errSoftTimeoutNotPositive ∨ e = .errMaximumTimeoutNotPositive ∨
         e = .errSoftTimeoutExceedsMaximum)) ∧
    (StartRequest m id s mx (some k) now).2.usedIDs = id :: m.usedIDs ∧
    (StartRequest m id s mx (some k) now).2.requests = m.requests ∧
    (StartRequest m id s mx (some k) now).2.pending = m.pending ∧
    (∀ (s2 mx2 : Int) (k2 : Nat) (now2 : Int),
      (StartRequest (StartRequest m id s mx (some k) now).2 id s2 mx2 (some k2) now2).1 =
        .error .errDuplicateRequestID) := by
  have hdup : ∀ (m2 : Manager α), m2.usedIDs = id :: m.usedIDs →
      ∀ (s2 mx2 : Int) (k2 : Nat) (now2 : Int),
        (StartRequest m2 id s2 mx2 (some k2) now2).1 = .error .errDuplicateRequestID := by
    intro m2 hu s2 mx2 k2 now2
    rw [StartRequest_dup s2 mx2 k2 now2 he (hu ▸ List.mem_cons_self id m.usedIDs)]
  by_cases hs : s ≤ 0
  · rw [StartRequest_softBad mx k now he hd hs]
    exact ⟨⟨_, rfl, Or.inl rfl⟩, rfl, rfl, rfl, hdup _ rfl⟩
  · by_cases hm : mx ≤ 0
    · rw [StartRequest_maxBad k now he hd hs hm]
      exact ⟨⟨_, rfl, Or.inr (Or.inl rfl)⟩, rfl, rfl, rfl, hdup _ rfl⟩
    · have hsm : s > mx := by
        rcases hbad with h1 | h1 | h1
        · exact absurd h1 hs
        · exact absurd h1 hm
        · exact h1
      rw [StartRequest_softGtMax k now he hd hs hm hsm]
      exact ⟨⟨_, rfl, Or.inr (Or.inr rfl)⟩, rfl, rfl, rfl, hdup _ rfl⟩

theorem StartRequest_timeout_failure_burns_id_witness :
    (∃ e, (StartRequest initManager idA 0 5 (some 0) 7).1 = .error e ∧
        (e = .errSoftTimeoutNotPositive ∨ e = .errMaximumTimeoutNotPositive ∨
         e = .errSoftTimeoutExceedsMaximum)) ∧
    (StartRequest initManager idA 0 5 (some 0) 7).2.usedIDs =
      idA :: (initManager : Manager String).usedIDs ∧
    (StartRequest initManager idA 0 5 (some 0) 7).2.requests =
      (initManager : Manager String).requests ∧
    (StartRequest initManager idA 0 5 (some 0) 7).2.pending =
      (initManager : Manager String).pending ∧
    (∀ (s2 mx2 : Int) (k2 : Nat) (now2 : Int),
      (StartRequest (StartRequest initManager idA 0 5 (some 0) 7).2 idA s2 mx2 (some k2) now2).1 =
        .error .errDuplicateRequestID) :=
  StartRequest_timeout_failure_burns_id initManager idA 0 5 0 7
    (by decide) (by simp [initManager]) (Or.inl (by decide))

theorem maxFields_replace_resched [DecidableEq α] {m : Manager α} {id : IDType α}
    {st : requestState α} (n : Int) (hl : lookupReq id m.requests = some st)
    (k2 : IDType α) :
    Option.map requestState.maximumTimer
        (lookupReq k2 (replaceReq id (rescheduleSoft st n) m.requests)) =
      Option.map requestState.maximumTimer (lookupReq k2 m.requests) ∧
    Option.map requestState.maximumTimeout
        (lookupReq k2 (replaceReq id (rescheduleSoft st n) m.requests)) =
      Option.map requestState.maximumTimeout (lookupReq k2 m.requests) := by
  by_cases hk : k2 = id
  · subst hk
    rw [lookupReq_replaceReq_self (rescheduleSoft st n) hl, hl]
    exact ⟨rfl, rfl⟩
  · rw [lookupReq_replaceReq_ne hk]
    exact ⟨rfl, rfl⟩

theorem maxFields_resetTimeout [DecidableEq α] (m : Manager α) (id : IDType α)
    (n : Int) (k2 : IDType α) :
    Option.map requestState.maximumTimer (lookupReq k2 (ResetTimeout m id n).2.requests) =
      Option.map requestState.maximumTimer (lookupReq k2 m.requests) ∧
    Option.map requestState.maximumTimeout (lookupReq k2 (ResetTimeout m id n).2.requests) =
      Option.map requestState.maximumTimeout (lookupReq k2 m.requests) := by
  cases hl : lookupReq id m.requests with
  | none => rw [ResetTimeout_none n hl]; exact ⟨rfl, rfl⟩
  | some st =>
    cases ht : st.softTimer with
    | none =>
      rw [ResetTimeout_resched n hl (Or.inl ht)]
      exact maxFields_replace_resched n hl k2
    | some t =>
      cases ha : t.active with
      | false => rw [ResetTimeout_stopFalse n hl ht ha]; exact ⟨rfl, rfl⟩
      | true =>
        rw [ResetTimeout_resched n hl (Or.inr ⟨t, ht, ha⟩)]
        exact maxFields_replace_resched n hl k2

theorem maxFields_applyResets [DecidableEq α] (m : Manager α) (id : IDType α)
    (nows : List Int) (k2 : IDType α) :
    Option.map requestState.maximumTimer (lookupReq k2 (applyResets m id nows).requests) =
      Option.map requestState.maximumTimer (lookupReq k2 m.requests) ∧
    Option.map requestState.maximumTimeout (lookupReq k2 (applyResets m id nows).requests) =
      Option.map requestState.maximumTimeout (lookupReq k2 m.requests) := by
  induction nows generalizing m with
  | nil => exact ⟨rfl, rfl⟩
  | cons n rest ih =>
    have h1 := maxFields_resetTimeout m id n k2
    have h2 := ih ((ResetTimeout m id n).2)
    simp only [applyResets, List.foldl_cons] at h2 ⊢
    exact ⟨h2.1.trans h1.1, h2.2.trans h1.2⟩

/-- C6: `ResetTimeout` returns `ErrRequestNotFound` for an id not in the
active table; returns success touching nothing when the soft timer's
`Stop()` reports false; otherwise reschedules only the soft timer with
the original `softTimeout` duration and refreshes `lastActivity` — and in
every case, repeated calls included, the maximum timer and its original
deadline are left untouched. -/
theorem ResetTimeout_behavior {α : Type} [DecidableEq α]
    (m : Manager α) (id : IDType α) (now : Int) :
    (lookupReq id m.requests = none →
      ResetTimeout m id now = (.error .errRequestNotFound, m)) ∧
    (∀ st t, lookupReq id m.requests = some st → st.softTimer = some t →
      t.active = false → ResetTimeout m id now = (.ok (), m)) ∧
    (∀ st, lookupReq id m.requests = some st →
      (st.softTimer = none ∨ ∃ t, st.softTimer = some t ∧ t.active = true) →
      (ResetTimeout m id now).1 = .ok () ∧
      lookupReq id (ResetTimeout m id now).2.requests = some (rescheduleSoft st now) ∧
      (rescheduleSoft st now).softTimer =
        some { duration := st.softTimeout, deadline := now + st.softTimeout, active := true } ∧
      (rescheduleSoft st now).lastActivity = now ∧
      (rescheduleSoft st now).maximumTimer = st.maximumTimer ∧
      (rescheduleSoft st now).maximumTimeout = st.maximumTimeout ∧
      (∀ k2, k2 ≠ id →
        lookupReq k2 (ResetTimeout m id now).2.requests = lookupReq k2 m.requests)) ∧
    (∀ (nows : List Int) (k2 : IDType α),
      Option.map requestState.maximumTimer (lookupReq k2 (applyResets m id nows).requests) =
        Option.map requestState.maximumTimer (lookupReq k2 m.requests) ∧
      Option.map requestState.maximumTimeout (lookupReq k2 (applyResets m id nows).requests) =
        Option.map requestState.maximumTimeout (lookupReq k2 m.requests)) := by
  refine ⟨fun hl => ResetTimeout_none now hl,
    fun st t hl ht ha => ResetTimeout_stopFalse now hl ht ha,
    ?_, fun nows k2 => maxFields_applyResets m id nows k2⟩
  intro st hl hact
  rw [ResetTimeout_resched now hl hact]
  refine ⟨rfl, lookupReq_replaceReq_self (rescheduleSoft st now) hl, rfl, rfl, rfl, rfl, ?_⟩
  intro k2 hk
  exact lookupReq_replaceReq_ne hk (rescheduleSoft st now) m.requests

theorem ResetTimeout_behavior_witness :
    (ResetTimeout c6M idA 103).1 = .ok () ∧
    lookupReq idA (ResetTimeout c6M idA 103).2.requests =
      some (rescheduleSoft (startState idA 5 9 0 100) 103) ∧
    (rescheduleSoft (startState idA 5 9 0 100) 103).softTimer =
      some { duration := 5, deadline := 103 + 5, active := true } ∧
    (rescheduleSoft (startState idA 5 9 0 100) 103).lastActivity = 103 ∧
    (rescheduleSoft (startState idA 5 9 0 100) 103).maximumTimer =
      (startState idA 5 9 0 100).maximumTimer ∧
    (rescheduleSoft (startState idA 5 9 0 100) 103).maximumTimeout =
      (startState idA 5 9 0 100).maximumTimeout ∧
    (∀ k2, k2 ≠ idA →
      lookupReq k2 (ResetTimeout c6M idA 103).2.requests = lookupReq k2 c6M.requests) :=
  (ResetTimeout_behavior c6M idA 103).2.2.1 (startState idA 5 9 0 100) rfl
    (Or.inr ⟨{ duration := 5, deadline := 105, active := true }, rfl, rfl⟩)

/-- C7: a panic raised by a timeout callback never propagates out of the
manager: the recovery barrier of `triggerCallback` catches it; when an
error handler was installed through `WithErrorHandler` it receives exactly
one `(id, error)` pair whose message is the recovered value prefixed by
`callback panic`, otherwise exactly one diagnostic line is printed, and
nothing escapes in either case. -/
theorem callback_panic_contained (h : Bool) (idS v : String) :
    (∀ beh, (runCallbackGuarded h idS beh).propagated = none) ∧
    (h = true →
      (runCallbackGuarded h idS (.panics v)).errorSink =
        [(idS, "callback panic: " ++ v)] ∧
      (runCallbackGuarded h idS (.panics v)).diagnostics = [] ∧
      ∃ rest, "callback panic: " ++ v = "callback panic" ++ rest) ∧
    (h = false →
      (runCallbackGuarded h idS (.panics v)).errorSink = [] ∧
      (runCallbackGuarded h idS (.panics v)).diagnostics =
        ["Request " ++ idS ++ " callback panicked: " ++ v]) := by
  have hsplit : ("callback panic" : String) ++ ": " = "callback panic: " := by decide
  refine ⟨?_, ?_, ?_⟩
  · intro beh
    cases beh with
    | returns => rfl
    | panics v2 => cases h <;> rfl
  · intro hh
    subst hh
    exact ⟨rfl, rfl, ⟨": " ++ v, by rw [← String.append_assoc, hsplit]⟩⟩
  · intro hh
    subst hh
    exact ⟨rfl, rfl⟩

theorem callback_panic_contained_witness :
    (runCallbackGuarded true "f" (.panics "boom")).errorSink =
      [("f", "callback panic: " ++ "boom")] ∧
    (runCallbackGuarded true "f" (.panics "boom")).diagnostics = [] ∧
    ∃ rest, "callback panic: " ++ "boom" = "callback panic" ++ rest :=
  (callback_panic_contained true "f" "boom").2.1 rfl

/-- C8 as stated is false on the code at JSON `null`: `null` is input of
the wrong kind for both id kinds, yet decoding it fails with
`ErrEmptyRequestID` — which `errors.Is` does not identify with the
`ErrInvalidID` sentinel — because `json.Unmarshal` leaves the receiver
untouched on `null` (no error), so the zero-value check fires instead of
the `InvalidIDError` wrapping path. -/
theorem id_json_null_counterexample :
    unmarshalIDString .null = .error .errEmptyRequestID ∧
    unmarshalIDInt .null = .error .errEmptyRequestID ∧
    (∀ s, Jsonv.null ≠ Jsonv.str s) ∧
    (∀ n, Jsonv.null ≠ Jsonv.int n) ∧
    errorsIsInvalidID .errEmptyRequestID = false :=
  ⟨rfl, rfl, fun _ h => Jsonv.noConfusion h, fun _ h => Jsonv.noConfusion h, rfl⟩

/-- C8 amended: id JSON round-trip.  `MarshalJSON` emits the bare
primitive of either kind; decoding that output returns an equal id
whenever the value is non-zero; decoding the zero value (`""` or `0`)
fails with `ErrEmptyRequestID`, as does decoding JSON `null` (which
`json.Unmarshal` leaves un-written, so the zero value remains); and
decoding any other JSON value of the wrong kind fails with an
`InvalidIDError`, which `errors.Is` identifies with the `ErrInvalidID`
sentinel. -/
theorem id_json_round_trip :
    (∀ s : String, marshalIDString ⟨s⟩ = .str s) ∧
    (∀ s : String, s ≠ "" → unmarshalIDString (marshalIDString ⟨s⟩) = .ok ⟨s⟩) ∧
    unmarshalIDString (.str "") = .error .errEmptyRequestID ∧
    unmarshalIDString .null = .error .errEmptyRequestID ∧
    (∀ j : Jsonv, (∀ s, j ≠ .str s) → j ≠ .null →
      ∃ c, unmarshalIDString j = .error (.invalidIDError c) ∧
        errorsIsInvalidID (.invalidIDError c) = true) ∧
    (∀ n : Int, marshalIDInt ⟨n⟩ = .int n) ∧
    (∀ n : Int, n ≠ 0 → unmarshalIDInt (marshalIDInt ⟨n⟩) = .ok ⟨n⟩) ∧
    unmarshalIDInt (.int 0) = .error .errEmptyRequestID ∧
    unmarshalIDInt .null = .error .errEmptyRequestID ∧
    (∀ j : Jsonv, (∀ n, j ≠ .int n) → j ≠ .null →
      ∃ c, unmarshalIDInt j = .error (.invalidIDError c) ∧
        errorsIsInvalidID (.invalidIDError c) = true) := by
  refine ⟨fun s => rfl, ?_, rfl, rfl, ?_, fun n => rfl, ?_, rfl, rfl, ?_⟩
  · intro s hs
    have hemp : (IDType.mk s).IsEmpty = false := by
      simp [IDType.IsEmpty]
      exact hs
    simp [marshalIDString, unmarshalIDString, hemp]
  · intro j hj hnull
    cases j with
    | str s => exact absurd rfl (hj s)
    | null => exact absurd rfl hnull
    | int n => exact ⟨_, rfl, rfl⟩
    | other => exact ⟨_, rfl, rfl⟩
  · intro n hn
    have hemp : (IDType.mk n).IsEmpty = false := by
      simp [IDType.IsEmpty]
      exact hn
    simp [marshalIDInt, unmarshalIDInt, hemp]
  · intro j hj hnull
    cases j with
    | int n => exact absurd rfl (hj n)
    | null => exact absurd rfl hnull
    | str s => exact ⟨_, rfl, rfl⟩
    | other => exact ⟨_, rfl, rfl⟩

theorem id_json_round_trip_witness :
    unmarshalIDString (marshalIDString ⟨"req-7"⟩) = .ok ⟨"req-7"⟩ ∧
    unmarshalIDInt (marshalIDInt ⟨42⟩) = .ok ⟨42⟩ :=
  ⟨id_json_round_trip.2.1 "req-7" (by decide),
   id_json_round_trip.2.2.2.2.2.2.1 42 (by decide)⟩

/-- C9 as stated is false on the code at a concrete envelope: a request
with version `"2.0"`, the non-empty method `" "` (one space, no reserved
prefix) and id 1 — which the claim says passes validation — is rejected,
because the validator rejects any method that is blank after trimming;
and the reserved-prefix rejection of a request carries a reason that
appends `, got: %q` to the bare reason string the claim names. -/
theorem request_validation_counterexample :
    JSONRPCRequest.Validate { jsonrpc := "2.0", method := " ", id := (⟨1⟩ : IDType Int) } =
      some (.validationError "method name cannot be empty or whitespace") ∧
    (" " : String) ≠ "" ∧
    JSONRPCRequest.Validate { jsonrpc := "2.0", method := "rpc.x", id := (⟨1⟩ : IDType Int) } =
      some (.validationError (reservedReason ++ ", got: " ++ goQuote "rpc.x")) ∧
    reservedReason ++ ", got: " ++ goQuote "rpc.x" ≠ reservedReason :=
  ⟨by decide, by decide, by decide, by decide⟩

/-- C9 amended: request and notification validation fail with a
`ValidationError` whenever the version differs from exactly `"2.0"`; when
the version is `"2.0"`, the method is non-blank after trimming and (for
requests) the id is non-empty, every method beginning with `rpc.` is
rejected with a `ValidationError` whose reason begins with the text
`method names starting with 'rpc.' are reserved` — for notifications
exactly that reason, for requests with the offending method appended —
and any such envelope whose method lacks the reserved prefix passes
validation. -/
theorem envelope_validation_amended {α : Type} [DecidableEq α] [GoZero α]
    (r : JSONRPCRequest α) (n : JSONRPCNotification) :
    (r.jsonrpc ≠ "2.0" → ∃ reason, r.Validate = some (.validationError reason)) ∧
    (n.jsonrpc ≠ "2.0" → ∃ reason, n.Validate = some (.validationError reason)) ∧
    (r.jsonrpc = "2.0" → isBlank r.method = false → r.id.IsEmpty = false →
      strHasPre "rpc." r.method = true →
      ∃ got, r.Validate = some (.validationError (reservedReason ++ got))) ∧
    (n.jsonrpc = "2.0" → isBlank n.method = false →
      strHasPre "rpc." n.method = true →
      n.Validate = some (.validationError reservedReason)) ∧
    (r.jsonrpc = "2.0" → isBlank r.method = false → r.id.IsEmpty = false →
      strHasPre "rpc." r.method = false → r.Validate = none) ∧
    (n.jsonrpc = "2.0" → isBlank n.method = false →
      strHasPre "rpc." n.method = false → n.Validate = none) := by
  refine ⟨?_, ?_, ?_, ?_, ?_, ?_⟩
  · intro hv
    refine ⟨"invalid JSON-RPC version: expected " ++ goQuote JSONRPCVersion ++
      ", got " ++ goQuote r.jsonrpc, ?_⟩
    simp [JSONRPCRequest.Validate, JSONRPCVersion, hv]
  · intro hv
    refine ⟨"invalid JSON-RPC version: expected " ++ goQuote JSONRPCVersion ++
      ", got " ++ goQuote n.jsonrpc, ?_⟩
    simp [JSONRPCNotification.Validate, JSONRPCVersion, hv]
  · intro hv hb hid hp
    refine ⟨", got: " ++ goQuote r.method, ?_⟩
    simp [JSONRPCRequest.Validate, JSONRPCVersion, hv, hb, hid, hp, String.append_assoc]
  · intro hv hb hp
    simp [JSONRPCNotification.Validate, JSONRPCVersion, hv, hb, hp]
  · intro hv hb hid hp
    simp [JSONRPCRequest.Validate, JSONRPCVersion, hv, hb, hid, hp]
  · intro hv hb hp
    simp [JSONRPCNotification.Validate, JSONRPCVersion, hv, hb, hp]

theorem envelope_validation_amended_witness :
    JSONRPCNotification.Validate { jsonrpc := "2.0", method := "rpc.ping" } =
      some (.validationError reservedReason) ∧
    JSONRPCRequest.Validate { jsonrpc := "2.0", method := "tools/list", id := (⟨7⟩ : IDType Int) } =
      none :=
  ⟨(envelope_validation_amended
      { jsonrpc := "2.0", method := "tools/list", id := (⟨7⟩ : IDType Int) }
      { jsonrpc := "2.0", method := "rpc.ping" }).2.2.2.1 rfl (by decide) (by decide),
   (envelope_validation_amended
      { jsonrpc := "2.0", method := "tools/list", id := (⟨7⟩ : IDType Int) }
      { jsonrpc := "2.0", method := "rpc.ping" }).2.2.2.2.1 rfl (by decide) (by decide)
      (by decide)⟩

end MCP
